import Mathlib

/-! epollserver.cpp: a shallow embedding

The program is a single-threaded epoll server over an abstract-namespace UNIX
stream socket.  Its globals (`canLoop`, `epfd`, `udsfd`, `addr`) become fields
of `State`; the part of the operating system the program talks to (the
descriptor table, the epoll interest list, the bound address) is carried in
the same record.  Every result the program receives from outside (a syscall
return value, the bytes a `read` delivers, the content of memory returned by
`malloc`) is an explicit argument of the function that consumes it.

Output is recorded as a list of structured lines (`Out`), one per
`printf`/`perror` call, and every call that leaves the program is recorded in
`trace` (`Sys`), both in program order.
-/

namespace EpollServer

/-! ## Constants of the source and of the platform headers -/

/-- The preprocessor constant `MAX_EVENTS` of the source. -/
def MAX_EVENTS : Nat := 32

/-- Value of `EXIT_SUCCESS` in `stdlib.h`. -/
def EXIT_SUCCESS : Int := 0

/-- Value of `EXIT_FAILURE` in `stdlib.h`. -/
def EXIT_FAILURE : Int := 1

/-- Value of `sizeof(int)`. -/
def sizeof_int : Nat := 4

/-- Width in bits of `size_t` (LP64, the 64-bit Linux data model). -/
def SIZE_BITS : Nat := 64

/-- Value of `sizeof(sa_family_t)` (an `unsigned short`). -/
def sizeof_sa_family_t : Nat := 2

/-- Number of bytes of `sun_path` in `struct sockaddr_un`. -/
def SUN_PATH_LEN : Nat := 108

/-- Value of `sizeof(sockaddr_un)`. -/
def sizeof_sockaddr_un : Nat := sizeof_sa_family_t + SUN_PATH_LEN

/-- Value of `EPOLLIN`. -/
def EPOLLIN : Nat := 1

/-! ## Observable events -/

/-- The string literals handed to `handleError` and `perror`. -/
inductive Msg where
  | socket | bind | listen | epoll_create | accept | epoll_wait | signal | read
  deriving DecidableEq, Repr

/-- One line of console output, one constructor per `printf`/`perror` call of
the source.  The formatted handle (`0x%08X`) is kept as the handle itself and
the bytes printed by `%s` as a byte list. -/
inductive Out where
  /-- `printf("Usage: epollserver <socket name>\n")` -/
  | usage
  /-- `printf("epoll descriptor: 0x%016X\n", epfd)` -/
  | epollDescriptor (fd : Int)
  /-- `printf("socket descriptor: 0x%016X\n", udsfd)` -/
  | socketDescriptor (fd : Int)
  /-- `printf("Polling...(Ctrl+C to exit)\n")` -/
  | polling
  /-- `printf("Connection from 0x%08X established.\n", clfd)` -/
  | established (clfd : Int)
  /-- `printf("Connection from 0x%08X closed.\n", clfd)` -/
  | closed (clfd : Int)
  /-- `printf("0x%08X: %s", clfd, buffer)`; `text` is what `%s` printed -/
  | message (clfd : Int) (text : List Nat)
  /-- `perror(msg)` -/
  | perror (msg : Msg)
  deriving DecidableEq, Repr

/-- The client handle a line of output names, if it names one. -/
def Out.handle : Out → Option Int
  | Out.established fd => some fd
  | Out.closed fd => some fd
  | Out.message fd _ => some fd
  | _ => none

/-- One call that leaves the program, with the arguments the source passes. -/
inductive Sys where
  | socket
  | bind (fd : Int) (sun_path : List Nat) (addrlen : Nat)
  | listen (fd : Int) (backlog : Nat)
  | epollCreate (size : Nat)
  | epollCtlAdd (epfd : Int) (fd : Int)
  | epollCtlDel (epfd : Int) (fd : Int)
  | epollWait (epfd : Int) (maxevents : Nat)
  | signal
  | accept (fd : Int)
  | read (fd : Int) (count : Nat)
  | malloc (size : Nat)
  | free
  | close (fd : Int)
  deriving DecidableEq, Repr

/-- The descriptor a call reads from, closes, accepts on or (de)registers. -/
def Sys.target : Sys → Option Int
  | Sys.bind fd _ _ => some fd
  | Sys.listen fd _ => some fd
  | Sys.epollCtlAdd _ fd => some fd
  | Sys.epollCtlDel _ fd => some fd
  | Sys.epollWait epfd _ => some epfd
  | Sys.accept fd => some fd
  | Sys.read fd _ => some fd
  | Sys.close fd => some fd
  | _ => none

/-! ## State -/

/-- The globals of the program together with the operating-system state it
acts on. -/
structure State where
  /-- `volatile sig_atomic_t canLoop` -/
  canLoop : Int
  /-- `int epfd` -/
  epfd : Int
  /-- `int udsfd` -/
  udsfd : Int
  /-- `sockaddr_un addr`: the bytes of `addr.sun_path` -/
  addr : List Nat
  /-- descriptors open in the process (standard streams left out) -/
  openFds : List Int
  /-- interest list of the epoll instance -/
  interest : List Int
  /-- the abstract-namespace name bound to the listening socket, once bound -/
  bound : Option (List Nat)
  /-- console output so far, oldest first -/
  out : List Out
  /-- calls issued so far, oldest first -/
  trace : List Sys
  /-- the exit status, once the process has ended -/
  exited : Option Int
  deriving DecidableEq, Repr

/-- The state at program start: the initialisers of the globals, nothing open. -/
def State.start : State :=
  { canLoop := 1, epfd := -1, udsfd := -1, addr := List.replicate SUN_PATH_LEN 0,
    openFds := [], interest := [], bound := none, out := [], trace := [],
    exited := none }

/-- Append one line of output. -/
def State.print (s : State) (l : Out) : State := { s with out := s.out ++ [l] }

/-- Record one call. -/
def State.sys (s : State) (c : Sys) : State := { s with trace := s.trace ++ [c] }

/-! ## The operating system, as far as the program uses it -/

/-- Outcome of one `read` call as the kernel decides it: an error (`-1`), or
the bytes that were available (of which at most `count` are delivered). -/
inductive ReadResult where
  | error
  | data (bytes : List Nat)
  deriving DecidableEq, Repr

/-- Return value of `read(fd, buf, count)`. -/
def ReadResult.ret (r : ReadResult) (count : Nat) : Int :=
  match r with
  | ReadResult.error => -1
  | ReadResult.data bytes => ((bytes.take count).length : Nat)

/-- Bytes `read(fd, buf, count)` stored at `buf`. -/
def ReadResult.stored (r : ReadResult) (count : Nat) : List Nat :=
  match r with
  | ReadResult.error => []
  | ReadResult.data bytes => bytes.take count

/-- A `read` on a descriptor that is not open fails (`EBADF`) whatever the
peer sent. -/
def sysRead (s : State) (fd : Int) (r : ReadResult) : ReadResult :=
  if fd ∈ s.openFds then r else ReadResult.error

/-- An `accept` on a descriptor that is not open fails (`EBADF`). -/
def sysAccept (s : State) (fd : Int) (res : Int) : Int :=
  if fd ∈ s.openFds then res else -1

/-- Effect of `close(fd)`: the descriptor leaves the table, and with it its
entry in the interest list; closing the epoll descriptor drops the whole
list. -/
def sysClose (fd : Int) (s : State) : State :=
  { s with
    openFds := s.openFds.filter (fun x => x != fd)
    interest := if fd = s.epfd then [] else s.interest.filter (fun x => x != fd)
    trace := s.trace ++ [Sys.close fd] }

/-- Effect of `epoll_ctl(epfd, EPOLL_CTL_ADD, fd, ...)`.  `ok` is false when
the kernel refuses for lack of resources (`ENOMEM`, `ENOSPC`); the call also
fails on a descriptor that is not open (`EBADF`) or already registered
(`EEXIST`). -/
def epollCtlAdd (fd : Int) (ok : Bool) (s : State) : State :=
  { s with
    interest :=
      if ok && decide (fd ∈ s.openFds) && !decide (fd ∈ s.interest) then s.interest ++ [fd]
      else s.interest
    trace := s.trace ++ [Sys.epollCtlAdd s.epfd fd] }

/-- Effect of `epoll_ctl(epfd, EPOLL_CTL_DEL, fd, ...)`; `ok` is false when
the kernel reports a failure. -/
def epollCtlDel (fd : Int) (ok : Bool) (s : State) : State :=
  { s with
    interest := if ok then s.interest.filter (fun x => x != fd) else s.interest
    trace := s.trace ++ [Sys.epollCtlDel s.epfd fd] }

/-! ## Machine integers and C strings -/

/-- Value of a little-endian byte sequence. -/
def leWord : List Nat → Nat
  | [] => 0
  | b :: rest => b % 256 + 256 * leWord rest

/-- The four little-endian bytes of a 32-bit word. -/
def le32 (w : Nat) : List Nat :=
  [w % 256, w / 256 % 256, w / 65536 % 256, w / 16777216 % 256]

/-- The `int` whose object representation is the 32-bit word `w`. -/
def toInt32 (w : Nat) : Int :=
  if w % 2 ^ 32 < 2 ^ 31 then ((w % 2 ^ 32 : Nat) : Int) else ((w % 2 ^ 32 : Nat) : Int) - 2 ^ 32

/-- Conversion of an `int` to `size_t`. -/
def toSizeT (i : Int) : Nat := (i % 2 ^ SIZE_BITS).toNat

/-- The bytes `%s` prints from memory `mem`: everything before the first NUL. -/
def cString (mem : List Nat) : List Nat := mem.takeWhile (fun b => b != 0)

/-- Value of `strlen(name)`. -/
def strlen (name : List Nat) : Nat := (cString name).length

/-- The `n` bytes `strncpy(dst, src, n)` writes: the string, cut to `n` bytes,
padded with NUL up to `n`. -/
def strncpy (src : List Nat) (n : Nat) : List Nat :=
  (cString src).take n ++ List.replicate (n - (cString src).length) 0

/-- What glibc prints for `%s` with a null pointer. -/
def NULL_TEXT : List Nat := [40, 110, 117, 108, 108, 41]

/-! ## Results supplied by the environment -/

/-- The `epoll_event` of the source, reduced to the fields the program uses
(`events` and `data.fd`). -/
structure epoll_event where
  events : Nat
  fd : Int
  deriving DecidableEq, Repr

/-- What the environment answers during one call of `processNewConnection`. -/
structure NewOracle where
  /-- return value of `accept` -/
  acceptRes : Int
  /-- whether the kernel has the resources for `EPOLL_CTL_ADD` -/
  addOk : Bool
  deriving DecidableEq, Repr

/-- What the environment answers during one call of
`processExistConnection`. -/
structure ExistOracle where
  /-- outcome of `read(clfd, &length, sizeof(int))` -/
  lenRead : ReadResult
  /-- whether `EPOLL_CTL_DEL` succeeds -/
  delOk : Bool
  /-- `malloc(length)`: `none` is a null pointer, `some mem` a block whose
  memory, from the returned address on, holds `mem` (not initialised by the
  allocator) -/
  heap : Option (List Nat)
  /-- outcome of `read(clfd, buffer, length)` -/
  bodyRead : ReadResult
  deriving DecidableEq, Repr

/-- What the environment answers during `initializeSocket`. -/
structure SocketOracle where
  /-- return value of `socket` -/
  socketRes : Int
  /-- whether the name is free to bind -/
  bindOk : Bool
  /-- whether `listen` succeeds -/
  listenOk : Bool
  deriving DecidableEq, Repr

/-- What the environment answers during `initializeEpoll`. -/
structure EpollOracle where
  /-- return value of `epoll_create` -/
  createRes : Int
  /-- whether the kernel has the resources for `EPOLL_CTL_ADD` -/
  addOk : Bool
  deriving DecidableEq, Repr

/-! ## The functions of the source -/

/-- `terminate`: close `epfd` and `udsfd` when they are set. -/
def terminate (s : State) : State :=
  let s := if s.epfd ≥ 0 then sysClose s.epfd s else s
  if s.udsfd ≥ 0 then sysClose s.udsfd s else s

/-- `handleError`: `perror(msg); terminate(); exit(EXIT_FAILURE);`. -/
def handleError (msg : Msg) (s : State) : State :=
  let s := s.print (Out.perror msg)
  let s := terminate s
  { s with exited := some EXIT_FAILURE }

/-- `signalHandler`: `canLoop = 0`. -/
def signalHandler (s : State) : State := { s with canLoop := 0 }

/-- `processNewConnection`. -/
def processNewConnection (_event : epoll_event) (o : NewOracle) (s : State) : State :=
  -- int clfd = accept(udsfd, (sockaddr*)&client, &size);
  let clfd := sysAccept s s.udsfd o.acceptRes
  let s := s.sys (Sys.accept s.udsfd)
  -- if (clfd < 0) handleError("accept");
  if clfd < 0 then handleError Msg.accept s
  else
    let s := { s with openFds := s.openFds ++ [clfd] }
    -- epoll_ctl(epfd, EPOLL_CTL_ADD, clfd, &newcl);   (result not looked at)
    let s := epollCtlAdd clfd o.addOk s
    -- printf("Connection from 0x%08X established.\n", clfd);
    s.print (Out.established clfd)

/-- `processExistConnection`. -/
def processExistConnection (event : epoll_event) (o : ExistOracle) (s : State) : State :=
  -- int length = 0;  int clfd = event->data.fd;
  let clfd := event.fd
  -- int state = read(clfd, &length, sizeof(int));
  let r := sysRead s clfd o.lenRead
  let state : Int := r.ret sizeof_int
  let length : Int := toInt32 (leWord (r.stored sizeof_int))
  let s := s.sys (Sys.read clfd sizeof_int)
  -- if (state < 0 || state != sizeof(int))
  if state < 0 ∨ toSizeT state ≠ sizeof_int then
    let s := s.print (Out.perror Msg.read)
    let s := epollCtlDel clfd o.delOk s
    let s := sysClose clfd s
    s.print (Out.closed clfd)
  -- if (state == 0)
  else if state = 0 then
    let s := epollCtlDel clfd o.delOk s
    let s := sysClose clfd s
    s.print (Out.closed clfd)
  else
    -- char *buffer = (char*)malloc(length);
    let s := s.sys (Sys.malloc (toSizeT length))
    -- read(clfd, buffer, length);   (result not looked at)
    let got := (sysRead s clfd o.bodyRead).stored (toSizeT length)
    let s := s.sys (Sys.read clfd (toSizeT length))
    -- printf("0x%08X: %s", clfd, buffer);
    let text :=
      match o.heap with
      | none => NULL_TEXT
      | some mem => cString (got ++ mem.drop got.length)
    let s := s.print (Out.message clfd text)
    -- free(buffer);
    s.sys Sys.free

/-- `initializeSocket`. -/
def initializeSocket (name : List Nat) (o : SocketOracle) (s : State) : State :=
  -- udsfd = socket(AF_UNIX, SOCK_STREAM, 0);
  let s := s.sys Sys.socket
  let s := { s with udsfd := o.socketRes }
  if s.udsfd < 0 then handleError Msg.socket s
  else
    let s := { s with openFds := s.openFds ++ [s.udsfd] }
    -- memset(&addr, 0, sizeof(sockaddr_un));
    let s := { s with addr := List.replicate SUN_PATH_LEN 0 }
    -- strncpy(addr.sun_path + 1, name, 64);
    let s := { s with addr := s.addr.take 1 ++ strncpy name 64 ++ s.addr.drop 65 }
    -- int addrlen = sizeof(sa_family_t) + strlen(name) + 1;
    let addrlen := sizeof_sa_family_t + strlen name + 1
    -- if (bind(udsfd, (sockaddr*)&addr, addrlen) < 0) handleError("bind");
    let s := s.sys (Sys.bind s.udsfd s.addr addrlen)
    if ¬ (o.bindOk ∧ sizeof_sa_family_t < addrlen ∧ addrlen ≤ sizeof_sockaddr_un) then
      handleError Msg.bind s
    else
      let s := { s with bound := some (s.addr.take (addrlen - sizeof_sa_family_t)) }
      -- if (listen(udsfd, MAX_EVENTS) < 0) handleError("listen");
      let s := s.sys (Sys.listen s.udsfd MAX_EVENTS)
      if ¬ o.listenOk then handleError Msg.listen s else s

/-- `initializeEpoll`. -/
def initializeEpoll (o : EpollOracle) (s : State) : State :=
  -- epfd = epoll_create(MAX_EVENTS);
  let s := s.sys (Sys.epollCreate MAX_EVENTS)
  let s := { s with epfd := o.createRes }
  if s.epfd < 0 then handleError Msg.epoll_create s
  else
    let s := { s with openFds := s.openFds ++ [s.epfd], interest := [] }
    -- epoll_ctl(epfd, EPOLL_CTL_ADD, udsfd, &endpoint);   (result not looked at)
    epollCtlAdd s.udsfd o.addOk s

/-! ## The event loop -/

/-- One entry of the `events` array filled by `epoll_wait`, with what the
environment answers while the entry is handled. -/
structure ReadyEvent where
  event : epoll_event
  newO : NewOracle
  existO : ExistOracle
  deriving DecidableEq, Repr

/-- Outcome of one `epoll_wait(epfd, events, MAX_EVENTS, -1)`. -/
inductive WaitResult where
  /-- `-1` for a reason other than a signal -/
  | failed
  /-- `-1` with `EINTR`; `sigint` tells whether the signal was `SIGINT`, whose
  handler has then run before the call returns -/
  | interrupted (sigint : Bool)
  /-- the ready entries, in the order reported -/
  | ready (events : List ReadyEvent)
  deriving DecidableEq, Repr

/-- Entries stored in `events` (never more than `MAX_EVENTS`). -/
def WaitResult.events : WaitResult → List ReadyEvent
  | WaitResult.ready evs => evs.take MAX_EVENTS
  | _ => []

/-- Return value of `epoll_wait`. -/
def WaitResult.ret (w : WaitResult) : Int :=
  match w with
  | WaitResult.ready _ => (w.events.length : Nat)
  | _ => -1

/-- One pass through the body of the `while` loop as the environment drives
it. -/
structure Cycle where
  wait : WaitResult
  /-- `SIGINT` arrives after `epoll_wait` has returned and before the loop
  condition is evaluated again -/
  sigintAfter : Bool
  deriving DecidableEq, Repr

/-- The `for` loop of `main` over the ready entries; `exit` inside a handler
ends the process, so nothing after it runs. -/
def dispatch : List ReadyEvent → State → State
  | [], s => s
  | e :: es, s =>
    if s.exited.isSome then s
    else
      -- if (it->data.fd == udsfd) processNewConnection(it); else processExistConnection(it);
      let s :=
        if e.event.fd = s.udsfd then processNewConnection e.event e.newO s
        else processExistConnection e.event e.existO s
      dispatch es s

/-- The end of `main`: `terminate(); return EXIT_SUCCESS;`. -/
def finish (s : State) : State :=
  { terminate s with exited := some EXIT_SUCCESS }

/-- The `while (canLoop)` loop of `main` followed by the end of `main`, driven
by the given cycles.  When the cycles run out with `canLoop` still set the
process is left blocked in `epoll_wait` (`exited = none`). -/
def mainLoop : List Cycle → State → State
  | [], s => if s.canLoop = 0 then finish s else s
  | c :: cs, s =>
    if s.canLoop = 0 then finish s
    else
      -- int epn = epoll_wait(epfd, events, MAX_EVENTS, -1);
      let s := s.sys (Sys.epollWait s.epfd MAX_EVENTS)
      let s :=
        match c.wait with
        | WaitResult.interrupted true => signalHandler s
        | _ => s
      let epn : Int := c.wait.ret
      -- if (epn < 0) handleError("epoll_wait");
      if epn < 0 then handleError Msg.epoll_wait s
      else
        let s := dispatch (c.wait.events.take epn.toNat) s
        if s.exited.isSome then s
        else mainLoop cs (if c.sigintAfter then signalHandler s else s)

/-- `main`; `argv` holds the arguments, program name first. -/
def main (argv : List (List Nat)) (so : SocketOracle) (eo : EpollOracle)
    (signalOk : Bool) (cycles : List Cycle) : State :=
  let s := State.start
  -- if (argc < 2) { printf("Usage: ..."); exit(EXIT_FAILURE); }
  if argv.length < 2 then { s.print Out.usage with exited := some EXIT_FAILURE }
  else
    let s := initializeSocket (argv.getD 1 []) so s
    if s.exited.isSome then s
    else
      let s := initializeEpoll eo s
      if s.exited.isSome then s
      else
        let s := s.print (Out.epollDescriptor s.epfd)
        let s := s.print (Out.socketDescriptor s.udsfd)
        -- if (signal(SIGINT, signalHandler) == SIG_ERR) handleError("signal");
        let s := s.sys Sys.signal
        if ¬ signalOk then handleError Msg.signal s
        else
          let s := s.print Out.polling
          mainLoop cycles s

/-- The state right after a successful start-up with listening socket `u` and
epoll descriptor `e`: both open, the socket registered, no client. -/
def loopStart (u e : Int) : State :=
  { canLoop := 1, epfd := e, udsfd := u, addr := List.replicate SUN_PATH_LEN 0,
    openFds := [u, e], interest := [u], bound := none, out := [], trace := [],
    exited := none }

/-- Client handles open in `s`: every open descriptor but the two the server
owns. -/
def openClients (s : State) : List Int :=
  s.openFds.filter (fun fd => fd != s.epfd && fd != s.udsfd)

/-- Client handles registered in `s`. -/
def registeredClients (s : State) : List Int :=
  s.interest.filter (fun fd => fd != s.udsfd)

/-- Open client handles and registered client handles coincide. -/
def Lockstep (s : State) : Prop :=
  (∀ fd ∈ openClients s, fd ∈ registeredClients s) ∧
  (∀ fd ∈ registeredClients s, fd ∈ openClients s)

instance (s : State) : Decidable (Lockstep s) := by
  unfold Lockstep
  infer_instance

/-- A loop state with one client, handle 5, open and registered. -/
def clientState : State :=
  { loopStart 3 4 with openFds := [3, 4, 5], interest := [3, 5] }

/-- A loop state with two clients, handles 5 and 6, open and registered. -/
def twoClients : State :=
  { loopStart 3 4 with openFds := [3, 4, 5, 6], interest := [3, 5, 6] }

/-- The peer of the handled connection has sent the frame `hi\n\0`: length
word 4, then the four payload bytes; the block returned by `malloc` held
`old` before. -/
def frameOracle (old : List Nat) : ExistOracle :=
  ⟨ReadResult.data (le32 4), true, some old, ReadResult.data [104, 105, 10, 0]⟩

/-- The command line `epollserver s`. -/
def serverArgs : List (List Nat) :=
  [[101, 112, 111, 108, 108, 115, 101, 114, 118, 101, 114], [115]]

/-- A start-up in which every call succeeds: `socket` returns 3,
`epoll_create` returns 4. -/
def goodSocket : SocketOracle := ⟨3, true, true⟩

/-- See `goodSocket`. -/
def goodEpoll : EpollOracle := ⟨4, true⟩

/-- A ready entry for the listening socket 3 on which `accept` returns
`clfd` and the registration of the new handle answers `addOk`. -/
def listenerReady (clfd : Int) (addOk : Bool) : ReadyEvent :=
  ⟨⟨EPOLLIN, 3⟩, ⟨clfd, addOk⟩, ⟨ReadResult.error, true, none, ReadResult.error⟩⟩

/-! ## Arithmetic of the length word -/

theorem leWord_le32 (L : Nat) (hL : L < 2 ^ 32) : leWord (le32 L) = L := by
  simp only [le32, leWord]
  omega

theorem le32_length (L : Nat) : (le32 L).length = 4 := rfl

theorem toSizeT_of_nonneg (n : Nat) (hn : n < 2 ^ 64) : toSizeT (n : Int) = n := by
  unfold toSizeT SIZE_BITS
  omega

theorem toInt32_small (L : Nat) (hL : L < 2 ^ 31) : toInt32 L = (L : Int) := by
  unfold toInt32
  have h : L % 2 ^ 32 = L := Nat.mod_eq_of_lt (by omega)
  rw [h, if_pos hL]

theorem toInt32_large (L : Nat) (h1 : 2 ^ 31 ≤ L) (h2 : L < 2 ^ 32) :
    toInt32 L = (L : Int) - 2 ^ 32 := by
  unfold toInt32
  have h : L % 2 ^ 32 = L := Nat.mod_eq_of_lt h2
  rw [h, if_neg (by omega)]

/-- The allocation size the program derives from a 32-bit length word. -/
theorem toSizeT_toInt32 (L : Nat) (hL : L < 2 ^ 32) :
    toSizeT (toInt32 L) = if L < 2 ^ 31 then L else L + (2 ^ 64 - 2 ^ 32) := by
  by_cases h : L < 2 ^ 31
  · rw [if_pos h, toInt32_small L h]
    exact toSizeT_of_nonneg L (by omega)
  · rw [if_neg h, toInt32_large L (by omega) hL]
    unfold toSizeT SIZE_BITS
    omega

theorem le_toSizeT_toInt32 (L : Nat) (hL : L < 2 ^ 32) : L ≤ toSizeT (toInt32 L) := by
  rw [toSizeT_toInt32 L hL]
  split <;> omega

/-! ## Facts about `read` and the branch taken on its result -/

theorem ReadResult.ret_cases (r : ReadResult) (count : Nat) :
    r.ret count = -1 ∨ ∃ k : Nat, k ≤ count ∧ r.ret count = (k : Int) := by
  cases r with
  | error => exact Or.inl rfl
  | data bytes =>
    refine Or.inr ⟨(bytes.take count).length, ?_, rfl⟩
    simp [List.length_take]

/-- The first test of `processExistConnection` succeeds exactly when the
length read did not return 4. -/
theorem badLength_iff (r : ReadResult) :
    (r.ret sizeof_int < 0 ∨ toSizeT (r.ret sizeof_int) ≠ sizeof_int) ↔ r.ret sizeof_int ≠ 4 := by
  rcases ReadResult.ret_cases r sizeof_int with h | ⟨k, hk, h⟩
  · rw [h]; simp
  · rw [h, toSizeT_of_nonneg k (by simp [sizeof_int] at hk; omega)]
    simp only [sizeof_int] at hk ⊢
    omega

/-- The state `processExistConnection` leaves on its first `return`. -/
theorem processExistConnection_of_bad (event : epoll_event) (o : ExistOracle) (s : State)
    (hr : (sysRead s event.fd o.lenRead).ret sizeof_int ≠ 4) :
    processExistConnection event o s =
      ((sysClose event.fd (epollCtlDel event.fd o.delOk
        ((s.sys (Sys.read event.fd sizeof_int)).print (Out.perror Msg.read)))).print
          (Out.closed event.fd)) := by
  have h := (badLength_iff (sysRead s event.fd o.lenRead)).mpr hr
  simp only [processExistConnection]
  rw [if_pos h]

/-- The state `processExistConnection` leaves when the length read returned 4. -/
theorem processExistConnection_of_good (event : epoll_event) (o : ExistOracle) (s : State)
    (hr : (sysRead s event.fd o.lenRead).ret sizeof_int = 4) :
    processExistConnection event o s =
      (((((s.sys (Sys.read event.fd sizeof_int)).sys
        (Sys.malloc (toSizeT (toInt32 (leWord ((sysRead s event.fd o.lenRead).stored sizeof_int)))))).sys
        (Sys.read event.fd
          (toSizeT (toInt32 (leWord ((sysRead s event.fd o.lenRead).stored sizeof_int)))))).print
        (Out.message event.fd
          (match o.heap with
           | none => NULL_TEXT
           | some mem =>
             cString ((sysRead s event.fd o.bodyRead).stored
                 (toSizeT (toInt32 (leWord ((sysRead s event.fd o.lenRead).stored sizeof_int)))) ++
               mem.drop ((sysRead s event.fd o.bodyRead).stored
                 (toSizeT (toInt32 (leWord ((sysRead s event.fd o.lenRead).stored
                   sizeof_int))))).length)))).sys Sys.free) := by
  have h : ¬ ((sysRead s event.fd o.lenRead).ret sizeof_int < 0 ∨
      toSizeT ((sysRead s event.fd o.lenRead).ret sizeof_int) ≠ sizeof_int) := by
    rw [badLength_iff]; simp [hr]
  have h0 : ¬ ((sysRead s event.fd o.lenRead).ret sizeof_int = 0) := by rw [hr]; decide
  simp only [processExistConnection]
  rw [if_neg h, if_neg h0]
  rfl

/-! ## Existing connections: closing on a bad length read -/

/-- C2: whenever the 4-byte length read on a handle returns anything but 4
(0 on a clean close, 1 to 3 on a short read, -1 on an error),
`processExistConnection` deregisters the handle, closes it, prints exactly one
"closed" line for it, issues no allocation and no second read, and returns
without ending the process. -/
theorem processExistConnection_bad_length_closes (event : epoll_event) (o : ExistOracle)
    (s : State) (hr : (sysRead s event.fd o.lenRead).ret sizeof_int ≠ 4) :
    event.fd ∉ (processExistConnection event o s).openFds ∧
    event.fd ∉ (processExistConnection event o s).interest ∧
    (processExistConnection event o s).trace =
      s.trace ++ [Sys.read event.fd sizeof_int, Sys.epollCtlDel s.epfd event.fd,
        Sys.close event.fd] ∧
    (processExistConnection event o s).out =
      s.out ++ [Out.perror Msg.read, Out.closed event.fd] ∧
    (processExistConnection event o s).exited = s.exited ∧
    (processExistConnection event o s).canLoop = s.canLoop := by
  rw [processExistConnection_of_bad event o s hr]
  refine ⟨?_, ?_, ?_, ?_, rfl, rfl⟩
  · simp [State.print, sysClose, List.mem_filter]
  · by_cases h : event.fd = s.epfd
    · simp [State.print, sysClose, epollCtlDel, State.sys, h]
    · simp [State.print, sysClose, epollCtlDel, State.sys, h, List.mem_filter]
  · simp [State.print, sysClose, epollCtlDel, State.sys]
  · simp [State.print, sysClose, epollCtlDel, State.sys]

/-- Witness for C2: client 5 of `clientState` closes its end, the length read
returns 0. -/
theorem processExistConnection_bad_length_closes_witness :
    (5 : Int) ∉ (processExistConnection ⟨EPOLLIN, 5⟩
        ⟨ReadResult.data [], true, none, ReadResult.error⟩ clientState).openFds ∧
    (5 : Int) ∉ (processExistConnection ⟨EPOLLIN, 5⟩
        ⟨ReadResult.data [], true, none, ReadResult.error⟩ clientState).interest ∧
    (processExistConnection ⟨EPOLLIN, 5⟩
        ⟨ReadResult.data [], true, none, ReadResult.error⟩ clientState).trace =
      clientState.trace ++ [Sys.read 5 sizeof_int, Sys.epollCtlDel clientState.epfd 5,
        Sys.close 5] ∧
    (processExistConnection ⟨EPOLLIN, 5⟩
        ⟨ReadResult.data [], true, none, ReadResult.error⟩ clientState).out =
      clientState.out ++ [Out.perror Msg.read, Out.closed 5] ∧
    (processExistConnection ⟨EPOLLIN, 5⟩
        ⟨ReadResult.data [], true, none, ReadResult.error⟩ clientState).exited =
      clientState.exited ∧
    (processExistConnection ⟨EPOLLIN, 5⟩
        ⟨ReadResult.data [], true, none, ReadResult.error⟩ clientState).canLoop =
      clientState.canLoop :=
  processExistConnection_bad_length_closes ⟨EPOLLIN, 5⟩
    ⟨ReadResult.data [], true, none, ReadResult.error⟩ clientState (by decide)

/-! ## Existing connections: other handles are left alone -/

/-- C6 (as amended): handling a readiness event on client handle `a` leaves
every other handle `b` as it was (open iff open before, registered iff
registered before), whatever the two reads, the allocator and the
deregistration answer; every call it issues on a descriptor is on `a`; every
line it prints either names `a` or names no handle at all (the `perror`
line of the close path), and none names `b`. -/
theorem processExistConnection_frame (event : epoll_event) (o : ExistOracle) (s : State)
    (a b : Int) (hab : a ≠ b) (ha : event.fd = a) (hep : a ≠ s.epfd) :
    (b ∈ (processExistConnection event o s).openFds ↔ b ∈ s.openFds) ∧
    (b ∈ (processExistConnection event o s).interest ↔ b ∈ s.interest) ∧
    (∃ calls, (processExistConnection event o s).trace = s.trace ++ calls ∧
      ∀ c ∈ calls, (c.target = none ∨ c.target = some a) ∧ c.target ≠ some b) ∧
    (∃ lines, (processExistConnection event o s).out = s.out ++ lines ∧
      ∀ l ∈ lines, (l.handle = none ∨ l.handle = some a) ∧ l.handle ≠ some b) := by
  subst ha
  have hba : b ≠ event.fd := fun h => hab h.symm
  by_cases hr : (sysRead s event.fd o.lenRead).ret sizeof_int = 4
  · rw [processExistConnection_of_good event o s hr]
    refine ⟨Iff.rfl, Iff.rfl, ⟨_, by simp only [State.sys, State.print, List.append_assoc]; rfl, ?_⟩,
      ⟨_, by simp only [State.sys, State.print]; rfl, ?_⟩⟩
    · intro c hc
      simp only [List.cons_append, List.nil_append, List.mem_cons, List.mem_singleton,
        List.not_mem_nil, or_false] at hc
      rcases hc with h | h | h | h <;> subst h <;> simp [Sys.target, hab]
    · intro l hl
      simp only [List.mem_singleton] at hl
      subst hl
      simp [Out.handle, hab]
  · rw [processExistConnection_of_bad event o s hr]
    refine ⟨?_, ?_, ⟨[Sys.read event.fd sizeof_int, Sys.epollCtlDel s.epfd event.fd,
        Sys.close event.fd], by simp [State.print, sysClose, epollCtlDel, State.sys], ?_⟩,
      ⟨[Out.perror Msg.read, Out.closed event.fd],
        by simp [State.print, sysClose, epollCtlDel, State.sys], ?_⟩⟩
    · simp [State.print, sysClose, epollCtlDel, State.sys, List.mem_filter, hba]
    · cases hd : o.delOk <;>
        simp [State.print, sysClose, epollCtlDel, State.sys, List.mem_filter, hba, hep, hd]
    · intro c hc
      simp only [List.mem_cons, List.mem_singleton, List.not_mem_nil, or_false] at hc
      rcases hc with h | h | h <;> subst h <;> simp [Sys.target, hab]
    · intro l hl
      simp only [List.mem_cons, List.mem_singleton, List.not_mem_nil, or_false] at hl
      rcases hl with h | h <;> subst h <;> simp [Out.handle, hab]

/-- Witness for C6: clients 5 and 6 are connected and 5 delivers a frame. -/
theorem processExistConnection_frame_witness :
    (6 ∈ (processExistConnection ⟨EPOLLIN, 5⟩ (frameOracle []) twoClients).openFds ↔
      6 ∈ twoClients.openFds) ∧
    (6 ∈ (processExistConnection ⟨EPOLLIN, 5⟩ (frameOracle []) twoClients).interest ↔
      6 ∈ twoClients.interest) ∧
    (∃ calls, (processExistConnection ⟨EPOLLIN, 5⟩ (frameOracle []) twoClients).trace =
        twoClients.trace ++ calls ∧
      ∀ c ∈ calls, (c.target = none ∨ c.target = some 5) ∧ c.target ≠ some 6) ∧
    (∃ lines, (processExistConnection ⟨EPOLLIN, 5⟩ (frameOracle []) twoClients).out =
        twoClients.out ++ lines ∧
      ∀ l ∈ lines, (l.handle = none ∨ l.handle = some 5) ∧ l.handle ≠ some 6) :=
  processExistConnection_frame ⟨EPOLLIN, 5⟩ (frameOracle []) twoClients 5 6
    (by decide) rfl (by decide)

/-- C6, counterexample: clients 5 and 6 are connected and the length read on
5 returns 0.  The handler prints two lines, the `perror("read")` line first;
that line names no handle, so not every line it logs is attributed to 5. -/
theorem processExistConnection_perror_names_no_handle :
    (5 : Int) ≠ 6 ∧
    (5 : Int) ∈ twoClients.openFds ∧ (6 : Int) ∈ twoClients.openFds ∧
    (processExistConnection ⟨EPOLLIN, 5⟩
        ⟨ReadResult.data [], true, none, ReadResult.error⟩ twoClients).out =
      twoClients.out ++ [Out.perror Msg.read, Out.closed 5] ∧
    ([Out.perror Msg.read, Out.closed 5].map Out.handle = [none, some 5]) ∧
    ¬ (∀ l ∈ (processExistConnection ⟨EPOLLIN, 5⟩
        ⟨ReadResult.data [], true, none, ReadResult.error⟩ twoClients).out.drop
          twoClients.out.length, l.handle = some 5) := by
  decide

/-! ## Existing connections: what is printed for a frame -/

theorem cString_append_nul (pre post : List Nat) (hpre : 0 ∉ pre) :
    cString (pre ++ 0 :: post) = pre := by
  unfold cString
  induction pre with
  | nil => simp
  | cons b bs ih =>
    have hb : b ≠ 0 := fun h => hpre (by simp [h])
    have hbs : 0 ∉ bs := fun h => hpre (List.mem_cons_of_mem _ h)
    simp [List.takeWhile_cons, hb, ih hbs]

/-- The length read returns 4 when the peer has sent a whole length word on an
open handle. -/
theorem ret_le32 (s : State) (h : Int) (L : Nat) (hopen : h ∈ s.openFds) :
    (sysRead s h (ReadResult.data (le32 L))).ret sizeof_int = 4 := by
  simp [sysRead, hopen, ReadResult.ret, le32, sizeof_int]

theorem stored_le32 (s : State) (h : Int) (L : Nat) (hopen : h ∈ s.openFds) :
    (sysRead s h (ReadResult.data (le32 L))).stored sizeof_int = le32 L := by
  simp [sysRead, hopen, ReadResult.stored, le32, sizeof_int]

/-- C1 (as amended): on an open, registered handle, when the length read
returns the four bytes of `L` and the payload read returns all `L` payload
bytes of a payload that contains a NUL byte, exactly one receipt is printed;
its payload part is the payload bytes before the first NUL (no length byte,
nothing added), and the handle stays open and registered. -/
theorem processExistConnection_prints_up_to_nul (event : epoll_event) (o : ExistOracle)
    (s : State) (pre post mem : List Nat)
    (hopen : event.fd ∈ s.openFds) (hreg : event.fd ∈ s.interest)
    (hlen : (pre ++ 0 :: post).length < 2 ^ 32) (hpre : 0 ∉ pre)
    (hword : o.lenRead = ReadResult.data (le32 (pre ++ 0 :: post).length))
    (hheap : o.heap = some mem)
    (hbody : o.bodyRead = ReadResult.data (pre ++ 0 :: post)) :
    (processExistConnection event o s).out = s.out ++ [Out.message event.fd pre] ∧
    event.fd ∈ (processExistConnection event o s).openFds ∧
    event.fd ∈ (processExistConnection event o s).interest ∧
    (processExistConnection event o s).exited = s.exited := by
  have hr : (sysRead s event.fd o.lenRead).ret sizeof_int = 4 := by
    rw [hword]; exact ret_le32 s event.fd _ hopen
  rw [processExistConnection_of_good event o s hr]
  refine ⟨?_, hopen, hreg, rfl⟩
  have hcount := le_toSizeT_toInt32 _ hlen
  have htake : (sysRead s event.fd o.bodyRead).stored
      (toSizeT (toInt32 (leWord ((sysRead s event.fd o.lenRead).stored sizeof_int)))) =
      pre ++ 0 :: post := by
    rw [hbody, hword, stored_le32 s event.fd _ hopen, leWord_le32 _ hlen]
    simp only [sysRead, hopen, if_true, ReadResult.stored]
    exact List.take_of_length_le hcount
  simp only [State.sys, State.print, hheap, htake]
  rw [List.append_assoc, List.cons_append, cString_append_nul pre _ hpre]

/-- Witness for C1 (as amended): the frame `hi\n\0` on client 5. -/
theorem processExistConnection_prints_up_to_nul_witness :
    (processExistConnection ⟨EPOLLIN, 5⟩ (frameOracle [1, 2]) clientState).out =
      clientState.out ++ [Out.message 5 [104, 105, 10]] ∧
    (5 : Int) ∈ (processExistConnection ⟨EPOLLIN, 5⟩ (frameOracle [1, 2]) clientState).openFds ∧
    (5 : Int) ∈ (processExistConnection ⟨EPOLLIN, 5⟩ (frameOracle [1, 2]) clientState).interest ∧
    (processExistConnection ⟨EPOLLIN, 5⟩ (frameOracle [1, 2]) clientState).exited =
      clientState.exited :=
  processExistConnection_prints_up_to_nul ⟨EPOLLIN, 5⟩ (frameOracle [1, 2]) clientState
    [104, 105, 10] [] [1, 2] (by decide) (by decide) (by decide) (by decide) rfl rfl rfl

/-- C1, counterexample: client 5 is open and registered, the length read
returns the four bytes of 3 and the payload read returns the three payload
bytes `A`, NUL, `B`; the receipt printed holds `A` only, not the payload. -/
theorem processExistConnection_drops_after_nul :
    (5 : Int) ∈ clientState.openFds ∧ (5 : Int) ∈ clientState.interest ∧
    ([65, 0, 66] : List Nat).length = 3 ∧
    (processExistConnection ⟨EPOLLIN, 5⟩
        ⟨ReadResult.data (le32 3), true, some [7, 7, 7, 0], ReadResult.data [65, 0, 66]⟩
        clientState).out = clientState.out ++ [Out.message 5 [65]] ∧
    (processExistConnection ⟨EPOLLIN, 5⟩
        ⟨ReadResult.data (le32 3), true, some [7, 7, 7, 0], ReadResult.data [65, 0, 66]⟩
        clientState).out ≠ clientState.out ++ [Out.message 5 [65, 0, 66]] := by
  decide

/-- C7, failing input: client 5 sends the length word 0 and the block that
`malloc(0)` returns still holds the bytes `ZUUU`, 5, NUL from an earlier use.
The program asks for 0 bytes twice, as the claim says, and leaves the handle
open and registered, but the receipt it prints carries the five stale bytes
instead of an empty payload. -/
theorem processExistConnection_empty_frame_prints_stale :
    (5 : Int) ∈ clientState.openFds ∧ (5 : Int) ∈ clientState.interest ∧
    (processExistConnection ⟨EPOLLIN, 5⟩
        ⟨ReadResult.data (le32 0), true, some [90, 85, 85, 85, 5, 0], ReadResult.data []⟩
        clientState).trace =
      clientState.trace ++ [Sys.read 5 4, Sys.malloc 0, Sys.read 5 0, Sys.free] ∧
    (processExistConnection ⟨EPOLLIN, 5⟩
        ⟨ReadResult.data (le32 0), true, some [90, 85, 85, 85, 5, 0], ReadResult.data []⟩
        clientState).out = clientState.out ++ [Out.message 5 [90, 85, 85, 85, 5]] ∧
    (processExistConnection ⟨EPOLLIN, 5⟩
        ⟨ReadResult.data (le32 0), true, some [90, 85, 85, 85, 5, 0], ReadResult.data []⟩
        clientState).out ≠ clientState.out ++ [Out.message 5 []] ∧
    (5 : Int) ∈ (processExistConnection ⟨EPOLLIN, 5⟩
        ⟨ReadResult.data (le32 0), true, some [90, 85, 85, 85, 5, 0], ReadResult.data []⟩
        clientState).openFds ∧
    (5 : Int) ∈ (processExistConnection ⟨EPOLLIN, 5⟩
        ⟨ReadResult.data (le32 0), true, some [90, 85, 85, 85, 5, 0], ReadResult.data []⟩
        clientState).interest := by
  decide

/-- For the length word 0 on an open handle the program asks the allocator
for 0 bytes and the payload read for 0 bytes, and the receipt it prints holds
whatever precedes the first NUL in the memory of the returned block; the
handle is left as it was. -/
theorem processExistConnection_empty_frame (event : epoll_event) (o : ExistOracle) (s : State)
    (mem : List Nat) (hopen : event.fd ∈ s.openFds)
    (hword : o.lenRead = ReadResult.data (le32 0)) (hheap : o.heap = some mem) :
    (processExistConnection event o s).trace =
      s.trace ++ [Sys.read event.fd sizeof_int, Sys.malloc 0, Sys.read event.fd 0, Sys.free] ∧
    (processExistConnection event o s).out = s.out ++ [Out.message event.fd (cString mem)] ∧
    (processExistConnection event o s).openFds = s.openFds ∧
    (processExistConnection event o s).interest = s.interest ∧
    (processExistConnection event o s).exited = s.exited := by
  have hr : (sysRead s event.fd o.lenRead).ret sizeof_int = 4 := by
    rw [hword]; exact ret_le32 s event.fd _ hopen
  have hz : toSizeT (toInt32 (leWord (le32 0))) = 0 := by decide
  have hst : ∀ r : ReadResult, (sysRead s event.fd r).stored 0 = [] := by
    intro r
    cases r <;> simp [sysRead, hopen, ReadResult.stored]
  rw [processExistConnection_of_good event o s hr, hword, stored_le32 s event.fd _ hopen, hz,
    hst, hheap]
  simp [State.sys, State.print]

/-! ## Existing connections: the size derived from the length word -/

/-- C10 (as amended): when the length read on an open handle returns the four
bytes of the word `L`, the program reads the word as an `int`: for
`L < 2^31` the size asked of the allocator and the count asked of the payload
read are both `L`; for `L ≥ 2^31` the `int` is negative and both are its
conversion to `size_t`, which is `L + 2^64 - 2^32`. -/
theorem processExistConnection_requests (event : epoll_event) (o : ExistOracle) (s : State)
    (L : Nat) (hL : L < 2 ^ 32) (hopen : event.fd ∈ s.openFds)
    (hword : o.lenRead = ReadResult.data (le32 L)) :
    (processExistConnection event o s).trace =
      s.trace ++ [Sys.read event.fd sizeof_int,
        Sys.malloc (if L < 2 ^ 31 then L else L + (2 ^ 64 - 2 ^ 32)),
        Sys.read event.fd (if L < 2 ^ 31 then L else L + (2 ^ 64 - 2 ^ 32)),
        Sys.free] := by
  have hr : (sysRead s event.fd o.lenRead).ret sizeof_int = 4 := by
    rw [hword]; exact ret_le32 s event.fd _ hopen
  rw [processExistConnection_of_good event o s hr, hword, stored_le32 s event.fd _ hopen,
    leWord_le32 _ hL, toSizeT_toInt32 L hL]
  simp [State.sys, State.print]

/-- Witness for C10 (as amended): the length word 4 on client 5. -/
theorem processExistConnection_requests_witness :
    (processExistConnection ⟨EPOLLIN, 5⟩ (frameOracle []) clientState).trace =
      clientState.trace ++ [Sys.read 5 sizeof_int,
        Sys.malloc (if 4 < 2 ^ 31 then 4 else 4 + (2 ^ 64 - 2 ^ 32)),
        Sys.read 5 (if 4 < 2 ^ 31 then 4 else 4 + (2 ^ 64 - 2 ^ 32)),
        Sys.free] :=
  processExistConnection_requests ⟨EPOLLIN, 5⟩ (frameOracle []) clientState 4
    (by decide) (by decide) rfl

/-- C10, counterexample: the length read on client 5 returns the bytes
`00 00 00 80`, the word `2^31`; the size asked of the allocator and the count
asked of the payload read are `2^64 - 2^31`, not `2^31`. -/
theorem processExistConnection_large_word :
    leWord [0, 0, 0, 128] = 2 ^ 31 ∧
    (processExistConnection ⟨EPOLLIN, 5⟩
        ⟨ReadResult.data [0, 0, 0, 128], true, none, ReadResult.error⟩ clientState).trace =
      clientState.trace ++ [Sys.read 5 4, Sys.malloc (2 ^ 64 - 2 ^ 31),
        Sys.read 5 (2 ^ 64 - 2 ^ 31), Sys.free] ∧
    (processExistConnection ⟨EPOLLIN, 5⟩
        ⟨ReadResult.data [0, 0, 0, 128], true, none, ReadResult.error⟩ clientState).trace ≠
      clientState.trace ++ [Sys.read 5 4, Sys.malloc (2 ^ 31), Sys.read 5 (2 ^ 31), Sys.free] := by
  decide

/-! ## Teardown -/

theorem terminate_eq (s : State) (hep : 0 ≤ s.epfd) (hud : 0 ≤ s.udsfd) :
    terminate s = sysClose s.udsfd (sysClose s.epfd s) := by
  have h1 : s.epfd ≥ 0 := hep
  have h2 : (sysClose s.epfd s).udsfd ≥ 0 := hud
  simp only [terminate, if_pos h1, if_pos h2]
  rfl

theorem terminate_openFds (s : State) (hep : 0 ≤ s.epfd) (hud : 0 ≤ s.udsfd) (fd : Int) :
    fd ∈ (terminate s).openFds ↔ fd ∈ s.openFds ∧ fd ≠ s.epfd ∧ fd ≠ s.udsfd := by
  rw [terminate_eq s hep hud]
  simp only [sysClose, List.mem_filter, bne_iff_ne, ne_eq, decide_eq_true_eq]
  tauto

theorem terminate_trace (s : State) (hep : 0 ≤ s.epfd) (hud : 0 ≤ s.udsfd) :
    (terminate s).trace = s.trace ++ [Sys.close s.epfd, Sys.close s.udsfd] := by
  rw [terminate_eq s hep hud]
  simp [sysClose]

theorem terminate_out (s : State) : (terminate s).out = s.out := by
  unfold terminate
  by_cases h1 : s.epfd ≥ 0 <;> by_cases h2 : s.udsfd ≥ 0 <;> simp [h1, h2, sysClose]

theorem WaitResult.take_ret (w : WaitResult) : w.events.take w.ret.toNat = w.events := by
  cases w with
  | failed => rfl
  | interrupted sigint => rfl
  | ready evs =>
    simp only [WaitResult.events, WaitResult.ret, Int.toNat_ofNat, List.take_length]

/-! ## New connections: a failing `accept` -/

/-- C3 (as amended): when the entry being handled is the listening endpoint
and `accept` fails, the error is logged and the process ends: `handleError`
closes the epoll descriptor and the endpoint and exits with `EXIT_FAILURE`.
Client handles are not closed by the program, the remaining ready entries are
not handled and no later wait cycle runs. -/
theorem accept_failure_is_fatal (s : State) (e : ReadyEvent) (rest : List ReadyEvent)
    (sig : Bool) (cs : List Cycle)
    (hrun : s.exited = none) (hep : 0 ≤ s.epfd) (hud : 0 ≤ s.udsfd)
    (hfd : e.event.fd = s.udsfd) (hacc : sysAccept s s.udsfd e.newO.acceptRes < 0) :
    (dispatch (e :: rest) s).exited = some EXIT_FAILURE ∧
    (dispatch (e :: rest) s).out = s.out ++ [Out.perror Msg.accept] ∧
    (dispatch (e :: rest) s).trace =
      s.trace ++ [Sys.accept s.udsfd, Sys.close s.epfd, Sys.close s.udsfd] ∧
    (∀ fd, fd ∈ (dispatch (e :: rest) s).openFds ↔
      fd ∈ s.openFds ∧ fd ≠ s.epfd ∧ fd ≠ s.udsfd) ∧
    (s.canLoop ≠ 0 →
      mainLoop (⟨WaitResult.ready (e :: rest), sig⟩ :: cs) s =
        dispatch (e :: rest) (s.sys (Sys.epollWait s.epfd MAX_EVENTS))) := by
  have key : ∀ (t : State) (es : List ReadyEvent), t.exited = none → t.udsfd = s.udsfd →
      t.openFds = s.openFds →
      dispatch (e :: es) t = handleError Msg.accept (t.sys (Sys.accept t.udsfd)) := by
    intro t es ht hu ho
    have hacc2 : sysAccept t t.udsfd e.newO.acceptRes < 0 := by
      simpa [sysAccept, hu, ho] using hacc
    have hx : (handleError Msg.accept (t.sys (Sys.accept t.udsfd))).exited.isSome = true := rfl
    simp only [dispatch, ht, Option.isSome_none, Bool.false_eq_true, if_false, hfd, hu, if_true,
      processNewConnection]
    rw [hu] at hacc2
    rw [if_pos hacc2]
    cases es with
    | nil => simp [dispatch, hu]
    | cons e2 es2 =>
      rw [hu] at hx
      simp only [dispatch, hx, if_true]
  have hd := key s rest hrun rfl rfl
  refine ⟨?_, ?_, ?_, ?_, ?_⟩
  · rw [hd]; rfl
  · rw [hd]
    simp only [handleError, terminate_out]
    rfl
  · rw [hd]
    simp only [handleError]
    rw [terminate_trace ((s.sys (Sys.accept s.udsfd)).print (Out.perror Msg.accept)) hep hud]
    simp [State.print, State.sys]
  · intro fd
    rw [hd]
    simp only [handleError]
    rw [terminate_openFds ((s.sys (Sys.accept s.udsfd)).print (Out.perror Msg.accept)) hep hud]
    simp [State.print, State.sys]
  · intro hloop
    have hret : ¬ ((WaitResult.ready (e :: rest)).ret < 0) := by
      simp [WaitResult.ret]
    rw [key (s.sys (Sys.epollWait s.epfd MAX_EVENTS)) rest hrun rfl rfl]
    simp only [mainLoop, if_neg hloop, if_neg hret, WaitResult.take_ret]
    have hev : (WaitResult.ready (e :: rest)).events = e :: rest.take 31 := by
      simp [WaitResult.events, MAX_EVENTS]
    rw [hev, key (s.sys (Sys.epollWait s.epfd MAX_EVENTS)) (rest.take 31) hrun rfl rfl]
    have hx : (handleError Msg.accept ((s.sys (Sys.epollWait s.epfd MAX_EVENTS)).sys
        (Sys.accept (s.sys (Sys.epollWait s.epfd MAX_EVENTS)).udsfd))).exited.isSome = true := rfl
    rw [if_pos hx]

/-- Witness for C3 (as amended): with client 5 connected, the endpoint is
reported ready twice in one batch and the first `accept` fails. -/
theorem accept_failure_is_fatal_witness :
    (dispatch (listenerReady (-1) true :: [listenerReady 7 true]) clientState).exited =
      some EXIT_FAILURE ∧
    (dispatch (listenerReady (-1) true :: [listenerReady 7 true]) clientState).out =
      clientState.out ++ [Out.perror Msg.accept] ∧
    (dispatch (listenerReady (-1) true :: [listenerReady 7 true]) clientState).trace =
      clientState.trace ++ [Sys.accept clientState.udsfd, Sys.close clientState.epfd,
        Sys.close clientState.udsfd] ∧
    (∀ fd, fd ∈ (dispatch (listenerReady (-1) true :: [listenerReady 7 true])
        clientState).openFds ↔
      fd ∈ clientState.openFds ∧ fd ≠ clientState.epfd ∧ fd ≠ clientState.udsfd) ∧
    (clientState.canLoop ≠ 0 →
      mainLoop (⟨WaitResult.ready (listenerReady (-1) true :: [listenerReady 7 true]), false⟩ ::
          []) clientState =
        dispatch (listenerReady (-1) true :: [listenerReady 7 true])
          (clientState.sys (Sys.epollWait clientState.epfd MAX_EVENTS))) :=
  accept_failure_is_fatal clientState (listenerReady (-1) true) [listenerReady 7 true] false []
    rfl (by decide) (by decide) rfl (by decide)

/-- C3, counterexample: the server starts (`socket` 3, `epoll_create` 4); in
the first batch the endpoint is ready twice and the first `accept` returns
-1; a second batch would bring another connection.  The process has exited
with `EXIT_FAILURE`, the endpoint and the epoll descriptor are closed, and
neither the second entry nor the second batch was handled. -/
theorem accept_failure_ends_process :
    (main serverArgs goodSocket goodEpoll true
        [⟨WaitResult.ready [listenerReady (-1) true, listenerReady 7 true], false⟩,
         ⟨WaitResult.ready [listenerReady 8 true], false⟩]).exited = some EXIT_FAILURE ∧
    (3 : Int) ∉ (main serverArgs goodSocket goodEpoll true
        [⟨WaitResult.ready [listenerReady (-1) true, listenerReady 7 true], false⟩,
         ⟨WaitResult.ready [listenerReady 8 true], false⟩]).openFds ∧
    (4 : Int) ∉ (main serverArgs goodSocket goodEpoll true
        [⟨WaitResult.ready [listenerReady (-1) true, listenerReady 7 true], false⟩,
         ⟨WaitResult.ready [listenerReady 8 true], false⟩]).openFds ∧
    (main serverArgs goodSocket goodEpoll true
        [⟨WaitResult.ready [listenerReady (-1) true, listenerReady 7 true], false⟩,
         ⟨WaitResult.ready [listenerReady 8 true], false⟩]).out =
      [Out.epollDescriptor 4, Out.socketDescriptor 3, Out.polling, Out.perror Msg.accept] ∧
    (main serverArgs goodSocket goodEpoll true
        [⟨WaitResult.ready [listenerReady (-1) true, listenerReady 7 true], false⟩,
         ⟨WaitResult.ready [listenerReady 8 true], false⟩]).trace =
      [Sys.socket, Sys.bind 3 (0 :: 115 :: List.replicate 106 0) 4, Sys.listen 3 32,
        Sys.epollCreate 32, Sys.epollCtlAdd 4 3, Sys.signal, Sys.epollWait 4 32,
        Sys.accept 3, Sys.close 4, Sys.close 3] := by
  decide

/-! ## The wait interrupted by a signal -/

/-- C4, failing input: the server is blocked in `epoll_wait` with no client
when `SIGINT` arrives; the handler clears `canLoop` and the wait returns -1.
The loop does not look at the flag: it takes the -1 for an error, prints the
`epoll_wait` error line and exits with `EXIT_FAILURE`, not `EXIT_SUCCESS`.
When the wait is interrupted with the flag still set (second run), the
process exits the same way instead of waiting again. -/
theorem interrupted_wait_ends_process :
    (main serverArgs goodSocket goodEpoll true
        [⟨WaitResult.interrupted true, false⟩]).exited = some EXIT_FAILURE ∧
    (main serverArgs goodSocket goodEpoll true
        [⟨WaitResult.interrupted true, false⟩]).canLoop = 0 ∧
    (main serverArgs goodSocket goodEpoll true
        [⟨WaitResult.interrupted true, false⟩]).out =
      [Out.epollDescriptor 4, Out.socketDescriptor 3, Out.polling, Out.perror Msg.epoll_wait] ∧
    (main serverArgs goodSocket goodEpoll true
        [⟨WaitResult.interrupted false, false⟩,
         ⟨WaitResult.ready [listenerReady 5 true], false⟩]).exited = some EXIT_FAILURE ∧
    (main serverArgs goodSocket goodEpoll true
        [⟨WaitResult.interrupted false, false⟩,
         ⟨WaitResult.ready [listenerReady 5 true], false⟩]).canLoop = 1 ∧
    (main serverArgs goodSocket goodEpoll true
        [⟨WaitResult.interrupted false, false⟩,
         ⟨WaitResult.ready [listenerReady 5 true], false⟩]).trace =
      [Sys.socket, Sys.bind 3 (0 :: 115 :: List.replicate 106 0) 4, Sys.listen 3 32,
        Sys.epollCreate 32, Sys.epollCtlAdd 4 3, Sys.signal, Sys.epollWait 4 32,
        Sys.close 4, Sys.close 3] := by
  decide

/-- In every loop state with the flag set, a wait that returns -1 ends the
process with `EXIT_FAILURE`, whether or not a signal caused it and whether or
not the handler has cleared the flag meanwhile. -/
theorem mainLoop_negative_wait_is_fatal (s : State) (w : WaitResult) (sig : Bool)
    (cs : List Cycle) (hloop : s.canLoop ≠ 0) (hneg : w.ret < 0) :
    (mainLoop (⟨w, sig⟩ :: cs) s).exited = some EXIT_FAILURE := by
  simp only [mainLoop, if_neg hloop, if_pos hneg]
  rfl

/-! ## Shutdown -/

/-- C5 (as amended): once the loop condition finds `canLoop` cleared, the loop
ends, `terminate` closes the epoll descriptor and the listening endpoint, and
`main` returns `EXIT_SUCCESS`.  Client handles are not touched: whatever else
was open is still open when `main` returns, and nothing is printed. -/
theorem mainLoop_shutdown (cs : List Cycle) (s : State)
    (hflag : s.canLoop = 0) (hep : 0 ≤ s.epfd) (hud : 0 ≤ s.udsfd) :
    (mainLoop cs s).exited = some EXIT_SUCCESS ∧
    (mainLoop cs s).trace = s.trace ++ [Sys.close s.epfd, Sys.close s.udsfd] ∧
    (mainLoop cs s).out = s.out ∧
    (∀ fd, fd ∈ (mainLoop cs s).openFds ↔ fd ∈ s.openFds ∧ fd ≠ s.epfd ∧ fd ≠ s.udsfd) := by
  have h : mainLoop cs s = finish s := by
    cases cs <;> simp [mainLoop, hflag]
  rw [h]
  refine ⟨rfl, ?_, ?_, ?_⟩
  · exact terminate_trace s hep hud
  · exact terminate_out s
  · intro fd
    exact terminate_openFds s hep hud fd

/-- Witness for C5 (as amended): `clientState` with the flag cleared. -/
theorem mainLoop_shutdown_witness :
    (mainLoop [] { clientState with canLoop := 0 }).exited = some EXIT_SUCCESS ∧
    (mainLoop [] { clientState with canLoop := 0 }).trace =
      clientState.trace ++ [Sys.close clientState.epfd, Sys.close clientState.udsfd] ∧
    (mainLoop [] { clientState with canLoop := 0 }).out = clientState.out ∧
    (∀ fd, fd ∈ (mainLoop [] { clientState with canLoop := 0 }).openFds ↔
      fd ∈ clientState.openFds ∧ fd ≠ clientState.epfd ∧ fd ≠ clientState.udsfd) :=
  mainLoop_shutdown [] { clientState with canLoop := 0 } rfl (by decide) (by decide)

/-- C5, counterexample: the server starts, accepts client 5 and registers it;
`SIGINT` arrives while that batch is handled.  The loop ends and `main`
returns `EXIT_SUCCESS`, but handle 5 is still open: teardown has neither
deregistered nor closed it. -/
theorem shutdown_leaves_client_open :
    (main serverArgs goodSocket goodEpoll true
        [⟨WaitResult.ready [listenerReady 5 true], true⟩]).exited = some EXIT_SUCCESS ∧
    (5 : Int) ∈ (main serverArgs goodSocket goodEpoll true
        [⟨WaitResult.ready [listenerReady 5 true], true⟩]).openFds ∧
    Sys.close 5 ∉ (main serverArgs goodSocket goodEpoll true
        [⟨WaitResult.ready [listenerReady 5 true], true⟩]).trace ∧
    Sys.epollCtlDel 4 5 ∉ (main serverArgs goodSocket goodEpoll true
        [⟨WaitResult.ready [listenerReady 5 true], true⟩]).trace ∧
    (main serverArgs goodSocket goodEpoll true
        [⟨WaitResult.ready [listenerReady 5 true], true⟩]).trace =
      [Sys.socket, Sys.bind 3 (0 :: 115 :: List.replicate 106 0) 4, Sys.listen 3 32,
        Sys.epollCreate 32, Sys.epollCtlAdd 4 3, Sys.signal, Sys.epollWait 4 32,
        Sys.accept 3, Sys.epollCtlAdd 4 5, Sys.close 4, Sys.close 3] := by
  decide

/-! ## The address bound by `initializeSocket` -/

/-- C8, failing input: the name is 65 times the letter `a`.  `strncpy` puts
its first 64 bytes after the leading NUL, but the length handed to `bind` is
computed from `strlen(name)`: it is 68, not 67, so the bound address is the
leading NUL, 64 letters and one more NUL.  The name of 66 letters agrees with
it on the first 64 bytes and is bound to a different address (two trailing
NULs), and for a name of 108 letters the length exceeds
`sizeof(sockaddr_un)`, `bind` fails and the process exits. -/
theorem initializeSocket_long_name :
    strlen (List.replicate 65 97) = 65 ∧
    (initializeSocket (List.replicate 65 97) goodSocket State.start).trace =
      [Sys.socket,
        Sys.bind 3 (0 :: (List.replicate 64 97 ++ List.replicate 43 0)) 68,
        Sys.listen 3 MAX_EVENTS] ∧
    68 ≠ sizeof_sa_family_t + 1 + min (strlen (List.replicate 65 97)) 64 ∧
    (initializeSocket (List.replicate 65 97) goodSocket State.start).bound =
      some (0 :: (List.replicate 64 97 ++ [0])) ∧
    (initializeSocket (List.replicate 65 97) goodSocket State.start).bound ≠
      some (0 :: (List.replicate 65 97).take 64) ∧
    (List.replicate 65 97).take 64 = (List.replicate 66 97).take 64 ∧
    (initializeSocket (List.replicate 65 97) goodSocket State.start).bound ≠
      (initializeSocket (List.replicate 66 97) goodSocket State.start).bound ∧
    (initializeSocket (List.replicate 108 97) goodSocket State.start).bound = none ∧
    (initializeSocket (List.replicate 108 97) goodSocket State.start).exited =
      some EXIT_FAILURE := by
  decide

theorem cString_of_no_nul (name : List Nat) (hnz : 0 ∉ name) : cString name = name := by
  unfold cString
  rw [List.takeWhile_eq_self_iff]
  intro b hb
  have : b ≠ 0 := fun h => hnz (h ▸ hb)
  simpa using this

/-- For a name of at most 64 bytes the program binds the leading NUL followed
by the name and nothing else, with the length the source comment asks for. -/
theorem initializeSocket_short_name (name : List Nat) (o : SocketOracle)
    (hnz : 0 ∉ name) (hlen : name.length ≤ 64) (hsock : 0 ≤ o.socketRes)
    (hbind : o.bindOk = true) (hlisten : o.listenOk = true) :
    (initializeSocket name o State.start).bound = some (0 :: name) ∧
    (initializeSocket name o State.start).trace =
      [Sys.socket,
        Sys.bind o.socketRes (0 :: (name ++ List.replicate (107 - name.length) 0))
          (sizeof_sa_family_t + 1 + min (strlen name) 64),
        Sys.listen o.socketRes MAX_EVENTS] ∧
    (initializeSocket name o State.start).exited = none := by
  have hs : ¬ (o.socketRes < 0) := not_lt.mpr hsock
  have hc := cString_of_no_nul name hnz
  have hstr : strlen name = name.length := by unfold strlen; rw [hc]
  have hmin : min name.length 64 = name.length := Nat.min_eq_left hlen
  have hcopy : strncpy name 64 = name ++ List.replicate (64 - name.length) 0 := by
    unfold strncpy
    rw [hc, List.take_of_length_le hlen]
  have haddr : (List.replicate SUN_PATH_LEN 0).take 1 ++ strncpy name 64 ++
      (List.replicate SUN_PATH_LEN 0).drop 65 =
      0 :: (name ++ List.replicate (107 - name.length) 0) := by
    have e : 64 - name.length + (108 - 65) = 107 - name.length := by omega
    rw [hcopy]
    simp only [SUN_PATH_LEN, List.take_replicate, List.drop_replicate, List.append_assoc,
      List.append_replicate_replicate, e]
    rfl
  have hok : ¬ ¬ (o.bindOk = true ∧ sizeof_sa_family_t < sizeof_sa_family_t + name.length + 1 ∧
      sizeof_sa_family_t + name.length + 1 ≤ sizeof_sockaddr_un) := by
    rw [not_not]
    refine ⟨hbind, by omega, ?_⟩
    simp only [sizeof_sockaddr_un, sizeof_sa_family_t, SUN_PATH_LEN]
    omega
  have hl : ¬ ¬ (o.listenOk = true) := not_not.mpr hlisten
  have htake : (0 :: (name ++ List.replicate (107 - name.length) 0)).take
      (sizeof_sa_family_t + name.length + 1 - sizeof_sa_family_t) = 0 :: name := by
    have e : sizeof_sa_family_t + name.length + 1 - sizeof_sa_family_t = name.length + 1 := by
      omega
    rw [e, List.take_succ_cons, List.take_left]
  have e : sizeof_sa_family_t + name.length + 1 = sizeof_sa_family_t + 1 + name.length := by
    omega
  simp only [initializeSocket, State.sys, State.start, if_neg hs, haddr, hstr, hmin]
  rw [if_neg hok, if_neg hl]
  simp only [htake, List.nil_append, List.cons_append]
  refine ⟨trivial, ?_, trivial⟩
  rw [e]

/-! ## Open handles and registered handles -/

/-- C9, failing input: the server starts, a client connects, `accept` returns
handle 5, and the kernel refuses the registration of 5 (`epoll_ctl` returns
-1, which the program does not look at).  The loop goes on with handle 5 open
and not registered. -/
theorem unregistered_client_after_failed_add :
    (main serverArgs goodSocket goodEpoll true
        [⟨WaitResult.ready [listenerReady 5 false], false⟩]).exited = none ∧
    openClients (main serverArgs goodSocket goodEpoll true
        [⟨WaitResult.ready [listenerReady 5 false], false⟩]) = [5] ∧
    registeredClients (main serverArgs goodSocket goodEpoll true
        [⟨WaitResult.ready [listenerReady 5 false], false⟩]) = [] ∧
    (main serverArgs goodSocket goodEpoll true
        [⟨WaitResult.ready [listenerReady 5 false], false⟩]).out =
      [Out.epollDescriptor 4, Out.socketDescriptor 3, Out.polling, Out.established 5] ∧
    (main serverArgs goodSocket goodEpoll true
        [⟨WaitResult.ready [listenerReady 5 false], false⟩]).trace =
      [Sys.socket, Sys.bind 3 (0 :: 115 :: List.replicate 106 0) 4, Sys.listen 3 32,
        Sys.epollCreate 32, Sys.epollCtlAdd 4 3, Sys.signal, Sys.epollWait 4 32,
        Sys.accept 3, Sys.epollCtlAdd 4 5] := by
  decide

/-! ### Where the two sets do stay equal

The steps of the loop keep open and registered client handles equal except
for the one case above: an existing-connection step keeps them equal whatever
the kernel answers, a new-connection step does when the registration
succeeds. -/

theorem mem_openClients (s : State) (fd : Int) :
    fd ∈ openClients s ↔ fd ∈ s.openFds ∧ fd ≠ s.epfd ∧ fd ≠ s.udsfd := by
  simp [openClients, List.mem_filter]

theorem mem_registeredClients (s : State) (fd : Int) :
    fd ∈ registeredClients s ↔ fd ∈ s.interest ∧ fd ≠ s.udsfd := by
  simp [registeredClients, List.mem_filter]

theorem lockstep_iff (s : State) :
    Lockstep s ↔ ∀ fd, fd ∈ openClients s ↔ fd ∈ registeredClients s :=
  ⟨fun h fd => ⟨h.1 fd, h.2 fd⟩, fun h => ⟨fun fd => (h fd).mp, fun fd => (h fd).mpr⟩⟩

theorem closed_openFds (event : epoll_event) (o : ExistOracle) (s : State) (fd : Int)
    (hr : (sysRead s event.fd o.lenRead).ret sizeof_int ≠ 4) :
    fd ∈ (processExistConnection event o s).openFds ↔ fd ∈ s.openFds ∧ fd ≠ event.fd := by
  rw [processExistConnection_of_bad event o s hr]
  simp [State.print, sysClose, epollCtlDel, State.sys, List.mem_filter]

theorem closed_interest (event : epoll_event) (o : ExistOracle) (s : State) (fd : Int)
    (hr : (sysRead s event.fd o.lenRead).ret sizeof_int ≠ 4) (hep : event.fd ≠ s.epfd) :
    fd ∈ (processExistConnection event o s).interest ↔ fd ∈ s.interest ∧ fd ≠ event.fd := by
  rw [processExistConnection_of_bad event o s hr]
  cases hd : o.delOk
  · simp [State.print, sysClose, epollCtlDel, State.sys, List.mem_filter, hep, hd]
  · simp [State.print, sysClose, epollCtlDel, State.sys, List.mem_filter, hep, hd]

theorem processExistConnection_epfd (event : epoll_event) (o : ExistOracle) (s : State) :
    (processExistConnection event o s).epfd = s.epfd ∧
    (processExistConnection event o s).udsfd = s.udsfd := by
  by_cases hr : (sysRead s event.fd o.lenRead).ret sizeof_int = 4
  · rw [processExistConnection_of_good event o s hr]
    exact ⟨rfl, rfl⟩
  · rw [processExistConnection_of_bad event o s hr]
    exact ⟨rfl, rfl⟩

/-- An existing-connection step on a client handle keeps open and registered
client handles equal, also when the deregistration fails: `close` follows
it. -/
theorem processExistConnection_keeps_lockstep (event : epoll_event) (o : ExistOracle)
    (s : State) (h : Lockstep s) (hep : event.fd ≠ s.epfd) :
    Lockstep (processExistConnection event o s) := by
  rw [lockstep_iff] at h ⊢
  intro fd
  have h0 := h fd
  rw [mem_openClients, mem_registeredClients] at h0
  rw [mem_openClients, mem_registeredClients, (processExistConnection_epfd event o s).1,
    (processExistConnection_epfd event o s).2]
  by_cases hr : (sysRead s event.fd o.lenRead).ret sizeof_int = 4
  · rw [processExistConnection_of_good event o s hr]
    exact h0
  · rw [closed_openFds event o s fd hr, closed_interest event o s fd hr hep]
    constructor
    · rintro ⟨⟨h1, h2⟩, h3, h4⟩
      exact ⟨⟨(h0.mp ⟨h1, h3, h4⟩).1, h2⟩, h4⟩
    · rintro ⟨⟨h1, h2⟩, h4⟩
      have := h0.mpr ⟨h1, h4⟩
      exact ⟨⟨this.1, h2⟩, this.2.1, h4⟩

/-- The state after a new-connection step whose `accept` returned a handle. -/
theorem processNewConnection_of_accepted (event : epoll_event) (o : NewOracle) (s : State)
    (hacc : 0 ≤ sysAccept s s.udsfd o.acceptRes) :
    processNewConnection event o s =
      (epollCtlAdd (sysAccept s s.udsfd o.acceptRes) o.addOk
        { s.sys (Sys.accept s.udsfd) with
          openFds := s.openFds ++ [sysAccept s s.udsfd o.acceptRes] }).print
        (Out.established (sysAccept s s.udsfd o.acceptRes)) := by
  have hlt : ¬ (sysAccept s s.udsfd o.acceptRes < 0) := not_lt.mpr hacc
  simp only [processNewConnection]
  rw [if_neg hlt]
  rfl

/-- A new-connection step keeps open and registered client handles equal when
`accept` returns a handle that was not open before and the registration of
that handle succeeds. -/
theorem processNewConnection_keeps_lockstep (event : epoll_event) (o : NewOracle) (s : State)
    (h : Lockstep s) (hepo : s.epfd ∈ s.openFds) (hfresh : o.acceptRes ∉ s.openFds)
    (hacc : 0 ≤ sysAccept s s.udsfd o.acceptRes) (hadd : o.addOk = true) :
    Lockstep (processNewConnection event o s) := by
  have hu : s.udsfd ∈ s.openFds := by
    by_contra hn
    simp [sysAccept, hn] at hacc
  have hres : sysAccept s s.udsfd o.acceptRes = o.acceptRes := by simp [sysAccept, hu]
  have hne : o.acceptRes ≠ s.epfd := fun e => hfresh (e ▸ hepo)
  have hnu : o.acceptRes ≠ s.udsfd := fun e => hfresh (e ▸ hu)
  rw [lockstep_iff] at h ⊢
  have hni : o.acceptRes ∉ s.interest := by
    intro hin
    have := (h o.acceptRes).mpr ((mem_registeredClients s _).mpr ⟨hin, hnu⟩)
    exact hfresh ((mem_openClients s _).mp this).1
  intro fd
  have h0 := h fd
  rw [mem_openClients, mem_registeredClients] at h0
  rw [mem_openClients, mem_registeredClients, processNewConnection_of_accepted event o s hacc,
    hres]
  have hop : fd ∈ ((epollCtlAdd o.acceptRes o.addOk
      { s.sys (Sys.accept s.udsfd) with openFds := s.openFds ++ [o.acceptRes] }).print
      (Out.established o.acceptRes)).openFds ↔ fd ∈ s.openFds ∨ fd = o.acceptRes := by
    simp [State.print, epollCtlAdd, State.sys]
  have hin : fd ∈ ((epollCtlAdd o.acceptRes o.addOk
      { s.sys (Sys.accept s.udsfd) with openFds := s.openFds ++ [o.acceptRes] }).print
      (Out.established o.acceptRes)).interest ↔ fd ∈ s.interest ∨ fd = o.acceptRes := by
    simp [State.print, epollCtlAdd, State.sys, hadd, hni]
  rw [hop, hin]
  change (fd ∈ s.openFds ∨ fd = o.acceptRes) ∧ fd ≠ s.epfd ∧ fd ≠ s.udsfd ↔
    (fd ∈ s.interest ∨ fd = o.acceptRes) ∧ fd ≠ s.udsfd
  constructor
  · rintro ⟨h1 | h1, h2, h3⟩
    · exact ⟨Or.inl (h0.mp ⟨h1, h2, h3⟩).1, h3⟩
    · exact ⟨Or.inr h1, h3⟩
  · rintro ⟨h1 | h1, h3⟩
    · have := h0.mpr ⟨h1, h3⟩
      exact ⟨Or.inl this.1, this.2.1, h3⟩
    · exact ⟨Or.inr h1, h1 ▸ hne, h3⟩

end EpollServer
